import Mathlib

/-!
# Verification of the media-converting pipeline

A shallow embedding of the decision/orchestration core of the
`media-converting` repository: the `MediaFile` data model and `classify`
(`models.py`), the ffmpeg command builders (`convert.py`,
`basic_convert.py`, `ConvertandMove.py`, `Gemini.py`), the conversion
executors modelled as state transitions over an abstract file system,
and the transfer engines (`file_handler.py`, `robocopy.py`).

Machine integers are modelled as `Int`/`Nat`, file sizes as `Rat`,
Python strings as `String`, `None`-able fields as `Option`, and the file
system as a list of paths.  External process invocations are modelled by
an explicit outcome parameter enumerating the exit paths of the Python
code (success / non-zero exit / exception), so each `try/except/finally`
block becomes a total function of that outcome.
-/

namespace MediaConv

/-- Boolean prefix test on lists, mirroring how Python's `str.__contains__`
is decided (needle compared against the front of the haystack). -/
def listIsPrefixB [DecidableEq α] : List α → List α → Bool
  | [], _ => true
  | _ :: _, [] => false
  | a :: as, b :: bs => a = b && listIsPrefixB as bs

/-- Boolean substring test on lists: some suffix of `hay` starts with `needle`. -/
def listContainsSub [DecidableEq α] (needle hay : List α) : Bool :=
  match hay with
  | [] => listIsPrefixB needle []
  | _ :: tl => listIsPrefixB needle hay || listContainsSub needle tl

/-- Python's `needle in hay` on strings (substring containment). -/
def strContainsSub (needle hay : String) : Bool :=
  listContainsSub needle.data hay.data

/-- ASCII lower-casing of one character (`str.lower` on the character
range the codec and status strings use). -/
def pyLowerChar (c : Char) : Char :=
  if 'A' ≤ c && c ≤ 'Z' then Char.ofNat (c.toNat + 32) else c

/-- Python's `str.lower()` (ASCII range). -/
def pyLower (s : String) : String := ⟨s.data.map pyLowerChar⟩

/-- ASCII upper-casing of one character. -/
def pyUpperChar (c : Char) : Char :=
  if 'a' ≤ c && c ≤ 'z' then Char.ofNat (c.toNat - 32) else c

/-- Python's `str.upper()` (ASCII range). -/
def pyUpper (s : String) : String := ⟨s.data.map pyUpperChar⟩

/-- A file-system path: directory components plus a file name, mirroring
`pathlib.Path` to the extent the code uses it. -/
structure FsPath where
  dir : List String
  name : String
  deriving DecidableEq, Repr

/-- The part of a file name before the last dot (`Path.stem`);
the whole name when there is no dot. -/
def stemChars : List Char → List Char
  | [] => []
  | c :: tl =>
      if c = '.' && (tl.contains '.') = false && tl ≠ [] then []
      else c :: stemChars tl

/-- `Path.stem` on a name given as a string. -/
def stemOfName (n : String) : String := ⟨stemChars n.data⟩

/-- The part of a file name from the last dot on (`Path.suffix`);
empty when there is no dot. -/
def suffixOfName (n : String) : String :=
  ⟨n.data.drop (stemChars n.data).length⟩

/-- `Path.with_suffix`: replace the suffix of the file name. -/
def FsPath.withSuffix (p : FsPath) (suf : String) : FsPath :=
  ⟨p.dir, stemOfName p.name ++ suf⟩

/-- `Path.with_name`: replace the file name, keep the directory. -/
def FsPath.withName (p : FsPath) (n : String) : FsPath :=
  ⟨p.dir, n⟩

/-- `Path.stem` of a path. -/
def FsPath.stem (p : FsPath) : String := stemOfName p.name

/-- `str(path)` with forward-slash separators, used when a path is
interpolated into a command argument list. -/
def pathStr (p : FsPath) : String :=
  String.intercalate "/" (p.dir ++ [p.name])

/-- An abstract file system: the list of extant file paths. -/
abbrev FS : Type := List FsPath

/-- `path.exists()`. -/
def fsContains (fs : FS) (p : FsPath) : Bool := fs.contains p

/-- Effect of `unlink` / `os.remove` on the abstract file system. -/
def fsRemove (fs : FS) (p : FsPath) : FS :=
  fs.filter (fun q => q ≠ p)

/-- Effect of creating (or overwriting) a file. -/
def fsAdd (fs : FS) (p : FsPath) : FS := p :: fs

/-! ## Data model (`models.py`) -/

/-- `SubtitleTrack` from `models.py`: one subtitle stream.  The `action`
field ranges over `"burn"`, `"copy"`, `"ignore"`. -/
structure SubtitleTrack where
  index : Int
  ffmpeg_index : Option Int := none
  language : String := "und"
  title : Option String := none
  codec : Option String := none
  is_default : Bool := false
  is_forced : Bool := false
  is_text_based : Bool := false
  action : String := "ignore"
  deriving DecidableEq, Repr

/-- `ConversionSettings` from `models.py` (the fields the verified code
paths consume). -/
structure ConversionSettings where
  use_nvenc : Bool := true
  use_two_pass : Bool := true
  video_codec : String := "hevc_nvenc"
  audio_codec : String := "ac3"
  audio_bitrate : String := "640k"
  crf : Int := 23
  output_directory : List String := ["converted"]
  dry_run : Bool := false
  delete_source_on_success : Bool := false
  filename_template : String := "{title} ({year}) - {width}p"
  deriving Repr

/-- `MediaFile` from `models.py`.  Python's `burned_subtitle` holds a
reference to one of the `subtitle_tracks` objects (or `None`); the
embedding stores the position of that track in the list, so that the
aliasing of Python object mutation is represented by updating the list
at that position. -/
structure MediaFile where
  source_path : FsPath
  destination_path : Option FsPath := none
  container : String := "N/A"
  video_codec : Option String := none
  video_width : Int := 0
  video_fps : Rat := 0
  audio_codec : Option String := none
  audio_channels : Int := 0
  title : String := ""
  year : Option Int := none
  comment : Option String := none
  subtitle_tracks : List SubtitleTrack := []
  burned_subtitle : Option Nat := none
  status : String := "Pending"
  error_message : Option String := none
  needs_conversion : Bool := true
  original_size_gb : Rat := 0
  converted_size_gb : Rat := 0
  output_filename : String := ""
  deriving Repr

/-- The subtitle track a `MediaFile`'s burn selection points at, if any. -/
def MediaFile.burnedTrack (m : MediaFile) : Option SubtitleTrack :=
  m.burned_subtitle.bind (fun i => m.subtitle_tracks.get? i)

/-- The accepted-for-copy audio codecs (`models.py`, `classify`). -/
def compatibleAudio : List String := ["aac", "ac3", "eac3"]

/-- The accepted-for-copy video codecs (`models.py`, `classify`). -/
def compatibleVideo : List String := ["h264", "hevc"]

/-- `MediaFile.classify` from `models.py`, line for line:
`if self.burned_subtitle: return "convert"`;
`if self.audio_codec and self.audio_codec.lower() not in compatible_audio: return "convert"`
(a `None` or empty codec is falsy and skips the check);
`if self.video_codec and not any(c in self.video_codec.lower() for c in compatible_video): return "convert"`
(note the substring test `c in ...`); otherwise `"remux"`. -/
def MediaFile.classify (m : MediaFile) : String :=
  if m.burned_subtitle.isSome then "convert"
  else if (match m.audio_codec with
           | some a => !a.isEmpty && !(compatibleAudio.contains (pyLower a))
           | none => false) then "convert"
  else if (match m.video_codec with
           | some v => !v.isEmpty && !(compatibleVideo.any (fun c => strContainsSub c (pyLower v)))
           | none => false) then "convert"
  else "remux"

/-- Modelled from the spec's words for claim C1 (the ordered decision of
§4.2): `convert` if a burn subtitle is selected; `convert` if the audio
codec is outside the accepted-for-copy set {aac, ac3, eac3}; `convert`
if the video codec is outside the accepted-for-copy set {h264, hevc};
otherwise `remux`.  "Outside the set" is literal set membership of the
lower-cased codec; a codec that is not a member (including an absent
one) is outside. -/
def specOrderedDecision (m : MediaFile) : String :=
  if m.burned_subtitle.isSome then "convert"
  else if !(match m.audio_codec with
            | some a => compatibleAudio.contains (pyLower a)
            | none => false) then "convert"
  else if !(match m.video_codec with
            | some v => compatibleVideo.contains (pyLower v)
            | none => false) then "convert"
  else "remux"

/-- The amended ordered decision, stated from the code's actual tests:
a *present, non-empty* audio codec whose lower-casing is not a member of
{aac, ac3, eac3} forces `convert`; a *present, non-empty* video codec
whose lower-casing contains neither `"h264"` nor `"hevc"` as a substring
forces `convert`; a missing codec never triggers a branch. -/
def orderedDecisionAmended (m : MediaFile) : String :=
  if m.burned_subtitle.isSome then "convert"
  else if (match m.audio_codec with
           | some a => !a.isEmpty && !(compatibleAudio.contains (pyLower a))
           | none => false) then "convert"
  else if (match m.video_codec with
           | some v => !v.isEmpty && !(compatibleVideo.any (fun c => strContainsSub c (pyLower v)))
           | none => false) then "convert"
  else "remux"

/-- Audio codec accepted for copy in the spec's sense: present and its
lower-casing a member of the set. -/
def audioInAcceptedSet (m : MediaFile) : Bool :=
  match m.audio_codec with
  | some a => compatibleAudio.contains (pyLower a)
  | none => false

/-- Video codec accepted for copy in the spec's sense: present and its
lower-casing a member of the set. -/
def videoInAcceptedSet (m : MediaFile) : Bool :=
  match m.video_codec with
  | some v => compatibleVideo.contains (pyLower v)
  | none => false

/-! ## Filename template (`models.py`, `generate_filename_from_template`) -/

/-- Leftmost, non-overlapping replacement of `pat` by `rep`, with fuel
bounded by the input length (each step consumes at least one input
element, so the fuel is never exhausted).  Mirrors Python `str.replace`
for non-empty patterns. -/
def replaceSubAux [DecidableEq α] (pat rep : List α) : Nat → List α → List α
  | 0, l => l
  | _ + 1, [] => []
  | fuel + 1, c :: tl =>
      if pat ≠ [] && listIsPrefixB pat (c :: tl) then
        rep ++ replaceSubAux pat rep fuel ((c :: tl).drop pat.length)
      else
        c :: replaceSubAux pat rep fuel tl

/-- Python's `str.replace(pat, rep)` (for the non-empty literal patterns
the code uses). -/
def strReplace (s pat rep : String) : String :=
  ⟨replaceSubAux pat.data rep.data s.data.length s.data⟩

/-- The characters removed by the `[\\/:"*?<>|]` cleanup regex. -/
def invalidFilenameChars : List Char := ['\\', '/', ':', '"', '*', '?', '<', '>', '|']

/-- Python's `str.strip()`: drop leading and trailing whitespace. -/
def stripStr (s : String) : String :=
  ⟨((s.data.dropWhile Char.isWhitespace).reverse.dropWhile Char.isWhitespace).reverse⟩

/-- `MediaFile.generate_filename_from_template` from `models.py`:
placeholder substitution for `{title}`, `{year}`, `{width}`, `{fps}`,
removal of invalid filename characters, strip, and a fixed `.mp4`
suffix.  (`round` here is Mathlib's round; Python's banker's rounding
differs only at exact halves, which no claim depends on.) -/
def generateFilenameFromTemplate (m : MediaFile) (template : String) : String :=
  if template.isEmpty then m.title ++ ".mp4"
  else
    let titleRepl := if m.title.isEmpty then m.source_path.stem else m.title
    let yearRepl := match m.year with
      | some y => if y = 0 then "" else toString y
      | none => ""
    let widthRepl := toString m.video_width
    let fpsRepl := toString (round m.video_fps : Int)
    let t1 := strReplace template "{title}" titleRepl
    let t2 := strReplace t1 "{year}" yearRepl
    let t3 := strReplace t2 "{width}" widthRepl
    let t4 := strReplace t3 "{fps}" fpsRepl
    let cleaned := stripStr ⟨t4.data.filter (fun c => !invalidFilenameChars.contains c)⟩
    cleaned ++ ".mp4"

/-! ## Command builders -/

/-- A single-quote character, used inside ffmpeg filter arguments. -/
def sq : String := String.singleton (Char.ofNat 39)

/-- `str(path).replace('\\', '/').replace(':', '\\:')`: the escaping the
builders apply to the source path before embedding it in the
`subtitles=` filter argument. -/
def escapeColons : List Char → List Char
  | [] => []
  | c :: tl => if c = ':' then '\\' :: ':' :: escapeColons tl else c :: escapeColons tl

/-- Filter-language escaping of a path string (see `escapeColons`). -/
def ffFilterEscape (s : String) : String :=
  ⟨escapeColons (s.data.map (fun c => if c = '\\' then '/' else c))⟩

/-- `str(x)` for the optional `ffmpeg_index` field: Python renders
`None` as the string `"None"` inside an f-string. -/
def optIntStr : Option Int → String
  | some i => toString i
  | none => "None"

/-- The text-based subtitle codecs `convert.py` will soft-copy into MP4. -/
def textSubCodecs : List String := ["subrip", "ass", "mov_text", "ssa"]

/-- The soft-copy `-map`/`-c:s:N` argument pairs of
`convert.py._build_ffmpeg_command`: one pair per track with
`action == "copy"` and a text-based codec, numbering output subtitle
streams consecutively. -/
def softCopySubArgs (tracks : List SubtitleTrack) : List String :=
  (tracks.filter (fun t => t.action == "copy")).foldl
    (fun (acc : List String × Nat) sub =>
      match sub.codec with
      | some c =>
          if textSubCodecs.contains c then
            (acc.1 ++ ["-map", "0:s:" ++ optIntStr sub.ffmpeg_index,
                       "-c:s:" ++ toString acc.2, "mov_text"], acc.2 + 1)
          else acc
      | none => acc)
    ([], 0) |>.1

/-- `_build_ffmpeg_command` from `convert.py`: base input, the
`subtitles=` burn filter when a burn track is selected, the video codec
section (NVENC or libx265 when burning, stream copy otherwise), the
unconditional audio section `-map 0:a -c:a <target> -b:a <bitrate>`,
soft-copy subtitle mappings, `-map 0:v`, `-map_metadata 0`, and —
final element — the output path `settings.output_directory /
media.output_filename` (the final name, not a temp path). -/
def buildFfmpegCommand (m : MediaFile) (s : ConversionSettings) : List String :=
  (["ffmpeg", "-y", "-i", pathStr m.source_path]
   ++ (match m.burnedTrack with
       | some t =>
           ["-vf", "subtitles=" ++ sq ++ ffFilterEscape (pathStr m.source_path) ++ sq
                   ++ ":stream_index=" ++ toString t.index]
       | none => [])
   ++ (match m.burnedTrack with
       | some _ =>
           if s.use_nvenc then
             ["-c:v", "hevc_nvenc", "-preset", "p5", "-rc:v", "vbr_hq", "-cq", "20", "-tier", "high"]
           else
             ["-c:v", "libx265", "-crf", toString s.crf, "-preset", "slow"]
       | none => ["-c:v", "copy"])
   ++ ["-map", "0:a", "-c:a", s.audio_codec, "-b:a", s.audio_bitrate]
   ++ softCopySubArgs m.subtitle_tracks
   ++ ["-map", "0:v"]
   ++ ["-map_metadata", "0"])
  ++ [pathStr ⟨s.output_directory, m.output_filename⟩]

/-- The audio-plan line of `MediaFile.generate_preview` (`models.py`):
copy when the audio codec is truthy, its lower-casing is in the accepted
set and the channel count is at least 6; otherwise re-encode to the
configured target codec and bitrate. -/
def previewAudioPlan (m : MediaFile) (s : ConversionSettings) : String :=
  let reencode := "Re-encode to " ++ pyUpper s.audio_codec ++ " at " ++ s.audio_bitrate
  match m.audio_codec with
  | some a =>
      if !a.isEmpty && compatibleAudio.contains (pyLower a) && m.audio_channels ≥ 6 then
        "Copy existing " ++ pyUpper a ++ " stream"
      else reencode
  | none => reencode

/-- The last element of a command list (the output argument every
builder appends last); `""` for the empty list. -/
def lastArg (cmd : List String) : String := cmd.getLastD ""

/-- Boolean string suffix test. -/
def strEndsWithB (suf s : String) : Bool :=
  listIsPrefixB suf.data.reverse s.data.reverse

/-! ## Basic remux executor (`basic_convert.py`, `run_basic_conversion`) -/

/-- The exit paths of a conversion attempt's `try` block: the encoder
raised or exited non-zero (a partial temp file may or may not have been
written), the post-encode rename/move raised, or everything succeeded. -/
inductive ExecOutcome where
  | encodeFail (tempWritten : Bool)
  | renameFail
  | success
  deriving DecidableEq, Repr

/-- The ffmpeg command of `run_basic_conversion`: stream-copy video and
audio, strip subtitles (`-sn`), optional metadata flags for truthy
title/year/comment, output to the `*.temp.mp4` path beside the source. -/
def basicCommand (m : MediaFile) : List String :=
  (["ffmpeg", "-y", "-i", pathStr m.source_path, "-c:v", "copy", "-c:a", "copy", "-sn"]
   ++ (if !m.title.isEmpty then ["-metadata", "title=" ++ m.title] else [])
   ++ (match m.year with
       | some y => if y ≠ 0 then ["-metadata", "date=" ++ toString y] else []
       | none => [])
   ++ (match m.comment with
       | some c => if !c.isEmpty then ["-metadata", "comment=" ++ c] else []
       | none => []))
  ++ [pathStr (m.source_path.withSuffix ".temp.mp4")]

/-- The `finally` block shared by the executors:
`if temp.exists(): temp.unlink()`. -/
def finallyTemp (fs : FS) (temp : FsPath) : FS :=
  if fsContains fs temp then fsRemove fs temp else fs

/-- `run_basic_conversion` from `basic_convert.py` as a transition on the
abstract file system: regenerate the output filename from the template,
pre-delete the temp path (`unlink(missing_ok=True)`), then run the
`try/except/finally` whose exit path is given by `out` (or return at the
dry-run check).  File sizes are not part of the file-system model, so
the `stat` reads are elided. -/
def runBasicConversion (m : MediaFile) (s : ConversionSettings) (fs : FS)
    (out : ExecOutcome) : MediaFile × FS :=
  let outName := generateFilenameFromTemplate m s.filename_template
  let final := m.source_path.withName outName
  let temp := m.source_path.withSuffix ".temp.mp4"
  let m1 := { m with status := "Remuxing", output_filename := outName,
                     destination_path := some final }
  let fs1 := fsRemove fs temp
  if s.dry_run then
    ({ m1 with status := "Dry Run (Basic)" }, finallyTemp fs1 temp)
  else
    match out with
    | .encodeFail w =>
        let fs2 := if w then fsAdd fs1 temp else fs1
        ({ m1 with status := "Error (Basic)",
                   error_message := some "Basic remux failed" }, finallyTemp fs2 temp)
    | .renameFail =>
        let fs2 := fsAdd fs1 temp
        ({ m1 with status := "Error (Basic)",
                   error_message := some "Basic remux failed" }, finallyTemp fs2 temp)
    | .success =>
        let fs2 := fsAdd fs1 temp
        let fs3 := fsAdd (fsRemove fs2 temp) final
        ({ m1 with status := "Converted (Basic)",
                   burned_subtitle := none,
                   subtitle_tracks := m1.subtitle_tracks.map
                     (fun t => { t with action := "ignore" }) }, finallyTemp fs3 temp)

/-! ## `Gemini.py` executor (`convert_to_mp4`) -/

/-- Exit paths of `Gemini.convert_to_mp4`: the initial `stat` raised
`FileNotFoundError`, the encoder failed (partial temp possible), the
`shutil.move` raised, or success. -/
inductive GemOutcome where
  | statFail
  | encodeFail (tempWritten : Bool)
  | moveFail
  | success
  deriving DecidableEq, Repr

/-- `delete_sidecar_files` from `Gemini.py`: remove the original file
and its `.nfo`/`.srt` sidecars. -/
def sidecarDelete (fs : FS) (orig : FsPath) : FS :=
  fsRemove (fsRemove (fsRemove fs orig) (orig.withSuffix ".nfo")) (orig.withSuffix ".srt")

/-- `convert_to_mp4` from `Gemini.py` as a transition on the abstract
file system, returning the `conversion_type` of its result dictionary
(`"error"` standing for the `None` it returns on failure).  The
already-converted check, dry-run return, and the
`try/except/finally` around the encode–move sequence are modelled; the
probes and log strings are not part of the file-system state. -/
def geminiConvertToMp4 (input : FsPath) (fs : FS) (dryRun : Bool)
    (out : GemOutcome) : String × FS :=
  let output := input.withSuffix ".mp4"
  match out with
  | .statFail => ("error", fs)
  | _ =>
    if fsContains fs output then ("skipped_already_converted", fs)
    else if dryRun then ("dry_run", fs)
    else
      let temp := input.withSuffix ".temp.mp4"
      match out with
      | .statFail => ("error", fs)
      | .encodeFail w =>
          ("error", finallyTemp (if w then fsAdd fs temp else fs) temp)
      | .moveFail =>
          ("error", finallyTemp (fsAdd fs temp) temp)
      | .success =>
          let fs2 := fsAdd (fsRemove (fsAdd fs temp) temp) output
          ("converted", finallyTemp (sidecarDelete fs2 input) temp)

/-! ## `ConvertandMove.py` executor (`convert_to_mp4`) -/

/-- Exit paths of `ConvertandMove.convert_to_mp4`'s `try` block. -/
inductive CmOutcome where
  | ffmpegFail (tempWritten : Bool)
  | unlinkFail
  | success
  deriving DecidableEq, Repr

/-- The ffmpeg command of `ConvertandMove.convert_to_mp4`: burn the
forced subtitle when present (libx264 re-encode), otherwise copy h264
video or re-encode; copy aac audio or re-encode to aac 384k; map the
first video and audio streams; soft-copy the full subtitle when distinct
from the forced one; output to the `*.temp.mp4` path beside the input. -/
def cmBuildCommand (input : FsPath) (videoCodec audioCodec : String)
    (forcedIdx fullIdx : Int) : List String :=
  (["ffmpeg", "-y", "-i", pathStr input]
   ++ (if forcedIdx ≥ 0 then
         ["-vf", "subtitles=" ++ sq ++ ffFilterEscape (pathStr input) ++ sq
                 ++ ":si=" ++ toString forcedIdx ++ ":force_style=" ++ sq
                 ++ "FontName=Arial" ++ sq,
          "-c:v", "libx264", "-crf", "23", "-preset", "veryfast"]
       else if videoCodec == "h264" then ["-c:v", "copy"]
       else ["-c:v", "libx264", "-crf", "23", "-preset", "veryfast"])
   ++ (if audioCodec == "aac" then ["-c:a", "copy"] else ["-c:a", "aac", "-b:a", "384k"])
   ++ ["-map", "0:v:0", "-map", "0:a:0"]
   ++ (if fullIdx ≥ 0 && fullIdx ≠ forcedIdx then
         ["-map", "0:s:" ++ toString fullIdx, "-scodec:s", "mov_text"]
       else []))
  ++ [pathStr (input.withSuffix ".temp.mp4")]

/-- `convert_to_mp4` from `ConvertandMove.py` (after its
`clean_filename` rename; `input` is the cleaned path) as a transition on
the abstract file system.  Returns (Python return value, new file
system, whether ffmpeg was invoked).  The skip check
`if output_file.exists(): return True` precedes everything; failure
cleanup is the `except` branch's `if temp_file.exists(): temp_file.unlink()`. -/
def cmConvertToMp4 (input : FsPath) (fs : FS) (dryRun : Bool)
    (out : CmOutcome) : Bool × FS × Bool :=
  let output := input.withSuffix ".mp4"
  if fsContains fs output then (true, fs, false)
  else if dryRun then (true, fs, false)
  else
    let temp := input.withSuffix ".temp.mp4"
    match out with
    | .ffmpegFail w =>
        let fs2 := if w then fsAdd fs temp else fs
        (false, finallyTemp fs2 temp, true)
    | .unlinkFail =>
        let fs2 := fsAdd (fsRemove (fsAdd fs temp) temp) output
        (false, finallyTemp fs2 temp, true)
    | .success =>
        let fs2 := fsAdd (fsRemove (fsAdd fs temp) temp) output
        (true, fsRemove fs2 input, true)

/-! ## `convert.py` pipeline step -/

/-- `_should_skip_conversion` from `convert.py`: skip when the user
flagged the file as not needing conversion, or when the source is
already an `.mp4` and no subtitle burn-in is selected.  The existence of
the final output path is *not* consulted. -/
def shouldSkipConversion (m : MediaFile) : Bool :=
  if !m.needs_conversion then true
  else
    let isMp4 := pyLower (suffixOfName m.source_path.name) == ".mp4"
    if isMp4 && !m.burned_subtitle.isSome then true
    else false

/-- `convert_media_file` from `convert.py`: set status `Converting` and
the destination path, build the command, and (unless dry-run) execute
ffmpeg (`-y`, so an existing output is overwritten).  Returns the
updated record, the file system, and whether the encoder was invoked. -/
def convertMediaFile (m : MediaFile) (s : ConversionSettings) (fs : FS)
    (encodeOk : Bool) : MediaFile × FS × Bool :=
  let outPath : FsPath := ⟨s.output_directory, m.output_filename⟩
  let m1 := { m with status := "Converting", destination_path := some outPath }
  if s.dry_run then ({ m1 with status := "Dry Run" }, fs, false)
  else if encodeOk then
    ({ m1 with status := "Converted" }, fsAdd fs outPath, true)
  else
    ({ m1 with status := "Error",
               error_message := some "FFmpeg failed" }, fs, true)

/-- One iteration of `convert_batch` from `convert.py`: files passing
`_should_skip_conversion` are marked `"Skipped"`, all others go through
`convert_media_file`. -/
def convertBatchStep (m : MediaFile) (s : ConversionSettings) (fs : FS)
    (encodeOk : Bool) : MediaFile × FS × Bool :=
  if shouldSkipConversion m then ({ m with status := "Skipped" }, fs, false)
  else convertMediaFile m s fs encodeOk

/-! ## Transfer engines (`file_handler.py`, `robocopy.py`) -/

/-- The move/transfer log: an association of path strings to statuses
(the JSON object keyed by path; only the status field matters to the
claims). -/
abbrev MoveLog : Type := List (String × String)

/-- Python dict assignment `log[k] = v`. -/
def logSet (log : MoveLog) (k v : String) : MoveLog :=
  (k, v) :: log.filter (fun e => e.1 ≠ k)

/-- Python `k in log`. -/
def logHasKey (log : MoveLog) (k : String) : Bool :=
  log.any (fun e => e.1 == k)

/-- Python `log.get(k)` (the status stored for `k`). -/
def logGet (log : MoveLog) (k : String) : Option String :=
  (log.find? (fun e => e.1 == k)).map (fun e => e.2)

/-- Outcome of a `shutil.move` call. -/
inductive MoveOutcome where
  | success
  | fail
  deriving DecidableEq, Repr

/-- `root in media.source_path.parents`: the parents of a path are the
prefixes of its directory, so a root directory (given as its component
list) matches when it is a prefix of the source's directory components. -/
def isAncestorRoot (root : List String) (p : FsPath) : Bool :=
  listIsPrefixB root p.dir

/-- The first configured source root that is an ancestor of the source
path (`file_handler.move_converted_files`, the `for root in
source_root_folders` loop with `break`). -/
def findSourceRoot (roots : List (List String)) (src : FsPath) : Option (List String) :=
  roots.find? (fun r => isAncestorRoot r src)

/-- `root.name`: the last component of a directory. -/
def lastComponent (dir : List String) : String := dir.getLastD ""

/-- One iteration of `move_converted_files` from `file_handler.py` for a
single record: skip when the converted file is absent; find the source
root (no match → log an error and `continue`, leaving the record's
status untouched); otherwise move `converted` to
`destination_base / root.name / converted.name`, set status
`Transferred` and log `Moved` on success, or set status
`Transfer Error` and log `Failed` on an exception.  The empty-directory
cleanup after a successful move is not modelled (directories are
implicit in the file-system model). -/
def moveConvertedFilesStep (media : MediaFile) (destBase : List String)
    (roots : List (List String)) (dryRun : Bool) (fs : FS) (log : MoveLog)
    (out : MoveOutcome) : MediaFile × FS × MoveLog :=
  match media.destination_path with
  | none => (media, fs, log)
  | some conv =>
    if !(fsContains fs conv) then (media, fs, log)
    else
      match findSourceRoot roots media.source_path with
      | none => (media, fs, log)
      | some root =>
          let finalDest : FsPath := ⟨destBase ++ [lastComponent root], conv.name⟩
          if dryRun then ({ media with status := "Transferred (Dry Run)" }, fs, log)
          else
            match out with
            | .success =>
                ({ media with status := "Transferred" },
                 fsAdd (fsRemove fs conv) finalDest,
                 logSet log (pathStr media.source_path) "Moved")
            | .fail =>
                ({ media with status := "Transfer Error",
                              error_message := some "move failed" },
                 fs,
                 logSet log (pathStr media.source_path) "Failed")

/-- `MOVIE_DESTINATION_BASE` of `robocopy.py`. -/
def movieDestBase : List String := ["Z:", "Movies"]

/-- `TV_SHOW_DESTINATION_BASE` of `robocopy.py`. -/
def tvShowDestBase : List String := ["Z:", "TV Shows"]

/-- Python `f"{n:02d}"` for the season/episode numbers. -/
def twoDigits (n : Int) : String :=
  if 0 ≤ n && n < 10 then "0" ++ toString n else toString n

/-- Result of `_get_final_destination_path` from `robocopy.py`:
a destination, an `AttributeError` (a required dynamic attribute was
missing), or an unknown `media_type` (returns `None` with only the
error message set). -/
inductive RcDest where
  | ok (p : FsPath)
  | attrErr
  | unknownType
  deriving DecidableEq, Repr

/-- `_get_final_destination_path` from `robocopy.py`.  `media_type`,
`title`, `season`, `episode` are the dynamically patched attributes
(`getattr` without default: absence raises `AttributeError`). -/
def rcGetFinalDestinationPath (media_type mtitle : Option String)
    (season episode : Option Int) (conv : FsPath) : RcDest :=
  match media_type, mtitle with
  | none, _ => .attrErr
  | _, none => .attrErr
  | some mt, some t =>
      if mt == "movie" then
        .ok ⟨movieDestBase, t ++ suffixOfName conv.name⟩
      else if mt == "tv" then
        match season, episode with
        | some se, some ep =>
            .ok ⟨tvShowDestBase ++ [t, "Season " ++ twoDigits se],
                 t ++ " S" ++ twoDigits se ++ "E" ++ twoDigits ep ++ suffixOfName conv.name⟩
        | _, _ => .attrErr
      else .unknownType

/-- `move_converted_file` from `robocopy.py`: error when the staged file
is missing; *short-circuit to `Skipped (Moved)` when its path is already
a key of the move log* (any status); then resolve the destination, honor
dry-run, move, and on success set status `Transferred` and log the
staged path as `Transferred`. -/
def rcMoveConvertedFile (media : MediaFile) (media_type mtitle : Option String)
    (season episode : Option Int) (log : MoveLog) (fs : FS) (dryRun : Bool)
    (out : MoveOutcome) : MediaFile × MoveLog × FS :=
  match media.destination_path with
  | none =>
      ({ media with status := "Error (Move)",
                    error_message := some "Source file not found" }, log, fs)
  | some src =>
    if !(fsContains fs src) then
      ({ media with status := "Error (Move)",
                    error_message := some "Source file not found" }, log, fs)
    else if logHasKey log (pathStr src) then
      ({ media with status := "Skipped (Moved)" }, log, fs)
    else
      match rcGetFinalDestinationPath media_type mtitle season episode src with
      | .attrErr =>
          ({ media with status := "Error (Move)",
                        error_message := some "Missing required attribute for move" }, log, fs)
      | .unknownType =>
          ({ media with error_message := some "Unknown media_type" }, log, fs)
      | .ok finalDest =>
          if dryRun then ({ media with status := "Dry Run (Move)" }, log, fs)
          else
            match out with
            | .success =>
                ({ media with status := "Transferred" },
                 logSet log (pathStr src) "Transferred",
                 fsAdd (fsRemove fs src) finalDest)
            | .fail =>
                ({ media with status := "Error (Move)",
                              error_message := some "Failed to move file" }, log, fs)

/-! ## Subtitle-selection operations (claim C8) -/

/-- The burn invariant of §3 of the spec, as an executable predicate on
a track list together with the burn selection (the position the
`burned_subtitle` reference points at): if set, the selection is a
member of the list and its action is `"burn"`, and no two tracks
simultaneously have action `"burn"`. -/
def burnInvariantB (ts : List SubtitleTrack) (burned : Option Nat) : Bool :=
  (match burned with
   | some i =>
       match ts.get? i with
       | some t => t.action == "burn"
       | none => false
   | none => true)
  && decide (ts.countP (fun t => t.action == "burn") ≤ 1)

/-- The selection loop of `subtitlesmkv.scan_file`'s auto-selection
(`for track in media.subtitle_tracks: if track.language == "eng" and
track.is_forced: track.action = "burn"; media.burned_subtitle = track;
break`): walk the track list, mark the first English forced track as
`"burn"` and return its position as the burn selection. -/
def autoSelectFirstForced : List SubtitleTrack → List SubtitleTrack × Option Nat
  | [] => ([], none)
  | t :: tl =>
      if t.language == "eng" && t.is_forced then
        ({ t with action := "burn" } :: tl, some 0)
      else
        let r := autoSelectFirstForced tl
        (t :: r.1, r.2.map (fun j => j + 1))

/-- The auto-selection step of `subtitlesmkv.scan_file`: the parsed
tracks all carry the constructor-default action `"ignore"` (modelled by
the reset map), then the first English forced track is selected for
burning. -/
def scanFileAutoSelect (tracks : List SubtitleTrack) : List SubtitleTrack × Option Nat :=
  autoSelectFirstForced (tracks.map (fun t => { t with action := "ignore" }))

/-- The soft-copy loop body of
`dashboard.MediaFileItemWidget.update_media_file_from_ui`: mark the
checked track `"copy"` unless a burn selection exists and shares its
container index. -/
def applyCopy (burnIdx : Option Int) (acc : List SubtitleTrack) (q : Nat) :
    List SubtitleTrack :=
  match acc.get? q with
  | none => acc
  | some t =>
      match burnIdx with
      | none => acc.set q { t with action := "copy" }
      | some bi =>
          if t.index == bi then acc
          else acc.set q { t with action := "copy" }

/-- `update_media_file_from_ui` from `dashboard.py` (the subtitle-action
part): take the burn selection from the combo box (`sel`, a position in
the track list, or `none`), reset every track's action to `"ignore"`,
mark the selection `"burn"`, then mark each checked soft-copy box's
track `"copy"` unless it is the burn selection (compared by container
index). -/
def uiSelectAndCopy (ts1 : List SubtitleTrack) (sel : Option Nat)
    (checked : List Nat) : List SubtitleTrack × Option Nat :=
  match sel with
  | none => (checked.foldl (applyCopy none) ts1, none)
  | some i =>
      match ts1.get? i with
      | some t =>
          (checked.foldl (applyCopy (some t.index)) (ts1.set i { t with action := "burn" }),
           some i)
      | none => (checked.foldl (applyCopy none) ts1, some i)

/-- See `uiSelectAndCopy`: `update_media_file_from_ui` first resets
every track's action to `"ignore"`, then applies the burn selection and
the soft-copy checkboxes. -/
def updateMediaFileFromUI (ts : List SubtitleTrack) (sel : Option Nat)
    (checked : List Nat) : List SubtitleTrack × Option Nat :=
  uiSelectAndCopy (ts.map (fun t => { t with action := "ignore" })) sel checked

/-! ## `size_change_percent` (`models.py`) -/

/-- `MediaFile.size_change_percent`: `0.0` when either size is falsy
(zero), otherwise the percentage change relative to the original size.
The division is guarded by the zero test, exactly as in the source. -/
def sizeChangePercent (origGb convGb : Rat) : Rat :=
  if origGb = 0 ∨ convGb = 0 then 0
  else ((convGb - origGb) / origGb) * 100

/-! ## Concrete instances used by counterexamples and witnesses -/

/-- C1 counterexample record: accepted audio, a video codec string that
is *outside* {h264, hevc} but contains `"hevc"` as a substring. -/
def mediaC1 : MediaFile :=
  { source_path := ⟨["E:", "Movies"], "A.mkv"⟩,
    audio_codec := some "aac", audio_channels := 6,
    video_codec := some "shevchenko" }

/-- C1 witness record (remux side): accepted codecs, six channels, no burn. -/
def mediaC1w : MediaFile :=
  { source_path := ⟨["E:", "Movies"], "W.mkv"⟩,
    audio_codec := some "ac3", audio_channels := 6,
    video_codec := some "hevc" }

/-- C1 witness record (burn side). -/
def mediaC1b : MediaFile :=
  { source_path := ⟨["E:", "Movies"], "X.mkv"⟩,
    audio_codec := some "ac3", audio_channels := 8,
    video_codec := some "h264",
    subtitle_tracks := [{ index := 2, language := "eng", is_forced := true, action := "burn" }],
    burned_subtitle := some 0 }

/-- C2 failing input: audio codec in the accepted set with ≥ 6 channels
(the preview's copy condition), and a burn selection so the built
command is the full-conversion one. -/
def trackC2 : SubtitleTrack :=
  { index := 2, ffmpeg_index := some 0, language := "eng", is_forced := true, action := "burn" }

/-- See `trackC2`. -/
def mediaC2 : MediaFile :=
  { source_path := ⟨["E:", "Movies"], "Show.mkv"⟩,
    audio_codec := some "ac3", audio_channels := 6,
    video_codec := some "h264",
    subtitle_tracks := [trackC2], burned_subtitle := some 0,
    output_filename := "Show.mp4" }

/-- Default settings (`ConversionSettings()` of `models.py`): target
audio codec `ac3` at `640k`. -/
def settingsDefault : ConversionSettings := {}

/-- C3 counterexample record: a plain full-conversion input. -/
def mediaC3 : MediaFile :=
  { source_path := ⟨["E:", "Movies"], "Doc.mkv"⟩,
    audio_codec := some "dts", video_codec := some "vc1",
    output_filename := "Doc.mp4" }

/-- C3 witness record for the rename-only-on-success conjunct. -/
def mediaC3w : MediaFile :=
  { source_path := ⟨["E:", "Movies"], "Ren.mkv"⟩, title := "Ren" }

/-- C5 counterexample record: an `.mkv` source that needs conversion. -/
def mediaC5 : MediaFile :=
  { source_path := ⟨["E:", "Movies"], "Film.mkv"⟩,
    output_filename := "Film.mp4" }

/-- C5 counterexample file system: the final output
`settings.output_directory / output_filename` already exists. -/
def fsC5 : FS := [⟨["converted"], "Film.mp4"⟩]

/-- C6 counterexample record: converted, staged beside the source. -/
def mediaC6 : MediaFile :=
  { source_path := ⟨["E:", "Movies", "Film"], "Film.mkv"⟩,
    destination_path := some ⟨["E:", "Movies", "Film"], "Film.mp4"⟩,
    status := "Converted" }

/-- C6 counterexample file system: the staged converted file exists. -/
def fsC6 : FS := [⟨["E:", "Movies", "Film"], "Film.mp4"⟩]

/-- C6 counterexample mapping table: no root is an ancestor of the
source path. -/
def rootsC6 : List (List String) := [["D:", "Other"]]

/-- C7 counterexample record. -/
def mediaC7 : MediaFile :=
  { source_path := ⟨["E:", "Movies"], "Old.mkv"⟩,
    destination_path := some ⟨["staging"], "Old.mp4"⟩,
    status := "Converted" }

/-- C7 counterexample log: the source path is already recorded as
`Moved`. -/
def logC7 : MoveLog := [("E:/Movies/Old.mkv", "Moved")]

/-- C7 counterexample file system: the staged converted file exists
again. -/
def fsC7 : FS := [⟨["staging"], "Old.mp4"⟩]

/-- C7 counterexample mapping table: the source root matches. -/
def rootsC7 : List (List String) := [["E:", "Movies"]]

/-- C9 counterexample record: both codecs absent, no burn selection. -/
def mediaC9 : MediaFile := { source_path := ⟨["E:", "Movies"], "B.mkv"⟩ }

/-- C9 witness record: a present audio codec outside the accepted set. -/
def mediaC9w : MediaFile :=
  { source_path := ⟨["E:", "Movies"], "C.mkv"⟩,
    audio_codec := some "dts", video_codec := some "h264" }

/-! ## Helper lemmas -/

theorem listIsPrefixB_refl [DecidableEq α] (l : List α) : listIsPrefixB l l = true := by
  induction l with
  | nil => rfl
  | cons a tl ih => simp [listIsPrefixB, ih]

theorem strContainsSub_refl (s : String) : strContainsSub s s = true := by
  unfold strContainsSub
  cases h : s.data with
  | nil => simp [listContainsSub, listIsPrefixB]
  | cons c tl => simp [listContainsSub, ← h, listIsPrefixB_refl]

theorem not_mem_fsRemove (fs : FS) (p : FsPath) : p ∉ fsRemove fs p := by
  intro h
  have h' := List.of_mem_filter (l := fs) h
  simp at h'

theorem mem_fsRemove_of_ne {fs : FS} {p q : FsPath} (h : q ∈ fs) (hne : q ≠ p) :
    q ∈ fsRemove fs p := by
  exact List.mem_filter.2 ⟨h, by simpa using hne⟩

theorem getLastD_append_singleton (l : List α) (x d : α) :
    (l ++ [x]).getLastD d = x := by
  induction l generalizing d with
  | nil => rfl
  | cons a tl ih => simp [List.getLastD, ih a]

theorem lastArg_append (l : List String) (x : String) : lastArg (l ++ [x]) = x := by
  simp [lastArg, getLastD_append_singleton]

theorem not_mem_finallyTemp (fs : FS) (p : FsPath) : p ∉ finallyTemp fs p := by
  unfold finallyTemp
  by_cases h : fsContains fs p = true
  · simp only [h, if_true]
    exact not_mem_fsRemove fs p
  · simp only [h, if_false]
    intro hm
    exact h (by simpa [fsContains] using hm)

/-! ## Claim theorems -/

/-- **C2** (code bug).  The spec and `MediaFile.generate_preview` both
say audio is copied when the source codec is in {aac, ac3, eac3} and the
channel count is ≥ 6, but `convert.py._build_ffmpeg_command`
unconditionally emits `-c:a <target> -b:a <bitrate>`: at the failing
input (ac3, 6 channels, burn selected) the preview reports a copy while
the built command re-encodes and contains no `-c:a copy`. -/
theorem c2_audio_copy_never_taken :
    previewAudioPlan mediaC2 settingsDefault = "Copy existing AC3 stream"
    ∧ listContainsSub ["-c:a", "ac3", "-b:a", "640k"]
        (buildFfmpegCommand mediaC2 settingsDefault) = true
    ∧ listContainsSub ["-c:a", "copy"] (buildFfmpegCommand mediaC2 settingsDefault) = false := by
  decide

/-- **C3** counterexample.  The full-conversion command of
`convert.py._build_ffmpeg_command` hands the encoder the *final* output
path `settings.output_directory / media.output_filename` — not a
`*.temp.mp4` path — refuting "every invocation writes to a temp path,
never directly to the final name". -/
theorem c3_counterexample :
    lastArg (buildFfmpegCommand mediaC3 settingsDefault) = pathStr ⟨["converted"], "Doc.mp4"⟩
    ∧ strEndsWithB ".temp.mp4" (lastArg (buildFfmpegCommand mediaC3 settingsDefault)) = false := by
  decide

/-- **C3** (corrected).  The remux path (`basic_convert.py`) and the
`ConvertandMove.py` path give the encoder the `*.temp.mp4` path beside
the source, and the basic executor creates the final output name only in
its success branch (by renaming the temp file); the `convert.py`
full-conversion builder, by contrast, passes the final output path
directly. -/
theorem c3_temp_output_amended :
    (∀ m : MediaFile,
       lastArg (basicCommand m) = pathStr (m.source_path.withSuffix ".temp.mp4"))
    ∧ (∀ (input : FsPath) (vc ac : String) (fi fu : Int),
       lastArg (cmBuildCommand input vc ac fi fu) = pathStr (input.withSuffix ".temp.mp4"))
    ∧ (∀ (m : MediaFile) (s : ConversionSettings),
       lastArg (buildFfmpegCommand m s) = pathStr ⟨s.output_directory, m.output_filename⟩)
    ∧ (∀ (m : MediaFile) (s : ConversionSettings) (fs : FS) (out : ExecOutcome),
       m.source_path.withName (generateFilenameFromTemplate m s.filename_template) ∉ fs →
       out ≠ ExecOutcome.success →
       m.source_path.withName (generateFilenameFromTemplate m s.filename_template)
         ∉ (runBasicConversion m s fs out).2) := by
  refine ⟨fun m => lastArg_append _ _, fun input vc ac fi fu => lastArg_append _ _,
          fun m s => lastArg_append _ _, ?_⟩
  intro m s fs out hnotin hout
  set final := m.source_path.withName (generateFilenameFromTemplate m s.filename_template) with hfinal
  set temp := m.source_path.withSuffix ".temp.mp4" with htemp
  have hrem : final ∉ fsRemove fs temp := fun h => hnotin (List.mem_of_mem_filter h)
  have hbase : ∀ fs' : FS, final ∉ fs' → final ∉ finallyTemp fs' temp := by
    intro fs' hf
    unfold finallyTemp
    by_cases hc : fsContains fs' temp = true
    · simp only [hc, if_true]
      intro hmem
      exact hf (List.mem_of_mem_filter hmem)
    · simp only [hc, if_false]; exact hf
  have haddt : ∀ fs' : FS, final ∉ fs' → final ∉ finallyTemp (fsAdd fs' temp) temp := by
    intro fs' hf
    by_cases he : final = temp
    · rw [he]; exact not_mem_finallyTemp _ _
    · exact hbase _ (by
        intro hmem
        rcases List.mem_cons.1 hmem with h | h
        · exact he h
        · exact hf h)
  unfold runBasicConversion
  by_cases hd : s.dry_run
  · simp only [hd, if_true]
    exact hbase _ hrem
  · simp only [hd, if_false]
    cases out with
    | encodeFail w =>
        cases w with
        | true => exact haddt _ hrem
        | false => exact hbase _ hrem
    | renameFail => exact haddt _ hrem
    | success => exact absurd rfl hout

/-- **C3** witness: the rename-only-on-success conjunct applied at a
concrete input (encoder failure leaves no final output). -/
theorem c3_temp_output_amended_witness :
    mediaC3w.source_path.withName
        (generateFilenameFromTemplate mediaC3w settingsDefault.filename_template)
      ∉ (runBasicConversion mediaC3w settingsDefault [] (ExecOutcome.encodeFail true)).2 :=
  c3_temp_output_amended.2.2.2 mediaC3w settingsDefault [] (ExecOutcome.encodeFail true)
    (by simp) (by simp)

/-- **C4** (confirmed).  Temp cleanup runs on every exit path: after
`run_basic_conversion` (`basic_convert.py`) the `*.temp.mp4` path of the
attempt is never in the resulting file system, whatever the outcome
(dry-run, encoder failure with or without a partial temp, rename
failure, success); after `Gemini.convert_to_mp4` either the file system
is untouched (early skip / dry-run / missing source) or the temp path is
gone. -/
theorem c4_cleanup_every_exit_path :
    (∀ (m : MediaFile) (s : ConversionSettings) (fs : FS) (out : ExecOutcome),
       m.source_path.withSuffix ".temp.mp4" ∉ (runBasicConversion m s fs out).2)
    ∧ (∀ (input : FsPath) (fs : FS) (dryRun : Bool) (out : GemOutcome),
       (geminiConvertToMp4 input fs dryRun out).2 = fs
       ∨ input.withSuffix ".temp.mp4" ∉ (geminiConvertToMp4 input fs dryRun out).2) := by
  constructor
  · intro m s fs out
    unfold runBasicConversion
    by_cases hd : s.dry_run
    · simp only [hd, if_true]
      exact not_mem_finallyTemp _ _
    · simp only [hd, if_false]
      cases out with
      | encodeFail w => exact not_mem_finallyTemp _ _
      | renameFail => exact not_mem_finallyTemp _ _
      | success => exact not_mem_finallyTemp _ _
  · intro input fs dryRun out
    unfold geminiConvertToMp4
    cases out with
    | statFail => exact Or.inl rfl
    | encodeFail w =>
        by_cases hc : fsContains fs (input.withSuffix ".mp4") = true
        · simp only [hc, if_true]; exact Or.inl (by trivial)
        · by_cases hd : dryRun = true
          · simp only [hc, hd, if_false, if_true]; exact Or.inl (by trivial)
          · simp only [hc, hd, if_false]
            exact Or.inr (not_mem_finallyTemp _ _)
    | moveFail =>
        by_cases hc : fsContains fs (input.withSuffix ".mp4") = true
        · simp only [hc, if_true]; exact Or.inl (by trivial)
        · by_cases hd : dryRun = true
          · simp only [hc, hd, if_false, if_true]; exact Or.inl (by trivial)
          · simp only [hc, hd, if_false]
            exact Or.inr (not_mem_finallyTemp _ _)
    | success =>
        by_cases hc : fsContains fs (input.withSuffix ".mp4") = true
        · simp only [hc, if_true]; exact Or.inl (by trivial)
        · by_cases hd : dryRun = true
          · simp only [hc, hd, if_false, if_true]; exact Or.inl (by trivial)
          · simp only [hc, hd, if_false]
            exact Or.inr (not_mem_finallyTemp _ _)

/-- **C10** (confirmed, implicit claim).  `size_change_percent` is total
and never divides by zero: it returns `0.0` whenever either size is
falsy (zero), and the division by `original_size_gb` is reached only
with both sizes nonzero. -/
theorem c10_size_change_total (o c : Rat) :
    (o = 0 ∨ c = 0 → sizeChangePercent o c = 0)
    ∧ (o ≠ 0 → c ≠ 0 → sizeChangePercent o c = ((c - o) / o) * 100) := by
  constructor
  · intro h
    simp [sizeChangePercent, h]
  · intro h1 h2
    simp [sizeChangePercent, h1, h2]

/-- **C10** witness: both branches at concrete sizes. -/
theorem c10_size_change_total_witness :
    sizeChangePercent 0 5 = 0 ∧ sizeChangePercent 2 3 = ((3 - 2) / 2) * 100 :=
  ⟨(c10_size_change_total 0 5).1 (Or.inl rfl),
   (c10_size_change_total 2 3).2 (by norm_num) (by norm_num)⟩

/-- **C5** counterexample.  The dashboard pipeline's skip check,
`convert.py._should_skip_conversion`, never consults the final output
path: at an `.mkv` input whose final output already exists, the skip
check is false, the batch step invokes the encoder (work is performed,
overwriting via `-y`), and the resulting status is `"Converted"`, not
`"Skipped (Exists)"` — a status no code under `src/` ever assigns. -/
theorem c5_counterexample :
    fsContains fsC5 ⟨settingsDefault.output_directory, mediaC5.output_filename⟩ = true
    ∧ shouldSkipConversion mediaC5 = false
    ∧ (convertBatchStep mediaC5 settingsDefault fsC5 true).2.2 = true
    ∧ (convertBatchStep mediaC5 settingsDefault fsC5 true).1.status = "Converted" := by
  decide

/-- **C5** (corrected).  The output-exists skip lives in the standalone
converters, not in the dashboard pipeline: `ConvertandMove.convert_to_mp4`
returns `True` without invoking ffmpeg or touching the file system when
the final `.mp4` beside the input exists, and `Gemini.convert_to_mp4`
(whenever the initial `stat` did not fail) reports
`"skipped_already_converted"` with the file system untouched. -/
theorem c5_skip_amended :
    (∀ (input : FsPath) (fs : FS) (dryRun : Bool) (out : CmOutcome),
       fsContains fs (input.withSuffix ".mp4") = true →
       cmConvertToMp4 input fs dryRun out = (true, fs, false))
    ∧ (∀ (input : FsPath) (fs : FS) (dryRun : Bool) (out : GemOutcome),
       out ≠ GemOutcome.statFail →
       fsContains fs (input.withSuffix ".mp4") = true →
       geminiConvertToMp4 input fs dryRun out = ("skipped_already_converted", fs)) := by
  constructor
  · intro input fs dryRun out h
    unfold cmConvertToMp4
    simp only [h, if_true]
  · intro input fs dryRun out hout h
    unfold geminiConvertToMp4
    cases out with
    | statFail => exact absurd rfl hout
    | encodeFail w => simp only [h, if_true]
    | moveFail => simp only [h, if_true]
    | success => simp only [h, if_true]

/-- **C5** witness: both skip branches applied at a concrete state. -/
theorem c5_skip_amended_witness :
    cmConvertToMp4 ⟨["E:", "Movies"], "Film.mkv"⟩ [⟨["E:", "Movies"], "Film.mp4"⟩]
        false CmOutcome.success
      = (true, [⟨["E:", "Movies"], "Film.mp4"⟩], false)
    ∧ geminiConvertToMp4 ⟨["E:", "Movies"], "Film.mkv"⟩ [⟨["E:", "Movies"], "Film.mp4"⟩]
        false GemOutcome.success
      = ("skipped_already_converted", [⟨["E:", "Movies"], "Film.mp4"⟩]) :=
  ⟨c5_skip_amended.1 ⟨["E:", "Movies"], "Film.mkv"⟩ [⟨["E:", "Movies"], "Film.mp4"⟩]
      false CmOutcome.success (by decide),
   c5_skip_amended.2 ⟨["E:", "Movies"], "Film.mkv"⟩ [⟨["E:", "Movies"], "Film.mp4"⟩]
      false GemOutcome.success (by decide) (by decide)⟩

/-- **C6** counterexample.  When no configured source root is an
ancestor of the source path, `file_handler.move_converted_files` only
logs and `continue`s: the file is indeed left in place, but the record's
status stays at its prior value (`"Converted"` here) — it is never set
to `"Transfer Error"` as the claim states. -/
theorem c6_counterexample :
    findSourceRoot rootsC6 mediaC6.source_path = none
    ∧ (moveConvertedFilesStep mediaC6 ["Z:"] rootsC6 false fsC6 [] MoveOutcome.success).1.status
        = "Converted"
    ∧ (moveConvertedFilesStep mediaC6 ["Z:"] rootsC6 false fsC6 [] MoveOutcome.success).2.1 = fsC6
    ∧ (moveConvertedFilesStep mediaC6 ["Z:"] rootsC6 false fsC6 [] MoveOutcome.success).2.2 = [] := by
  decide

/-- **C6** (corrected).  For every record whose original source path is
under none of the configured source roots, the transfer step performs no
move and guesses no destination — the file system, the log, and the
record (its status included) are all left untouched; the failure is only
written to the activity log, the status is *not* set to
`"Transfer Error"`. -/
theorem c6_no_mapping_amended :
    ∀ (media : MediaFile) (destBase : List String) (roots : List (List String))
      (dryRun : Bool) (fs : FS) (log : MoveLog) (out : MoveOutcome),
      findSourceRoot roots media.source_path = none →
      moveConvertedFilesStep media destBase roots dryRun fs log out = (media, fs, log) := by
  intro media destBase roots dryRun fs log out h
  unfold moveConvertedFilesStep
  cases hd : media.destination_path with
  | none => rfl
  | some conv =>
      by_cases hc : fsContains fs conv = true
      · simp only [hc, Bool.not_true, Bool.false_eq_true, if_false, h]
      · simp only [hc, Bool.not_false, if_true]

/-- **C6** witness: the no-mapping branch applied at a concrete state. -/
theorem c6_no_mapping_amended_witness :
    moveConvertedFilesStep
        { source_path := ⟨["F:", "Video"], "V.mkv"⟩,
          destination_path := some ⟨["F:", "Video"], "V.mp4"⟩, status := "Converted" }
        ["Z:"] [["E:", "Movies"]] false [⟨["F:", "Video"], "V.mp4"⟩] [] MoveOutcome.success
      = ({ source_path := ⟨["F:", "Video"], "V.mkv"⟩,
           destination_path := some ⟨["F:", "Video"], "V.mp4"⟩, status := "Converted" },
         [⟨["F:", "Video"], "V.mp4"⟩], []) :=
  c6_no_mapping_amended
    { source_path := ⟨["F:", "Video"], "V.mkv"⟩,
      destination_path := some ⟨["F:", "Video"], "V.mp4"⟩, status := "Converted" }
    ["Z:"] [["E:", "Movies"]] false [⟨["F:", "Video"], "V.mp4"⟩] [] MoveOutcome.success
    (by decide)

/-- **C7** counterexample.  `file_handler.move_converted_files` reads the
move log but never consults it before moving: with the source path
already logged as `Moved` and the staged file present again, the step
still performs the move (the destination `Z:/Movies/Old.mp4` appears in
the file system), so the existing log entry does not short-circuit the
repeat transfer. -/
theorem c7_counterexample :
    logGet logC7 (pathStr mediaC7.source_path) = some "Moved"
    ∧ fsContains fsC7 ⟨["Z:", "Movies"], "Old.mp4"⟩ = false
    ∧ fsContains
        (moveConvertedFilesStep mediaC7 ["Z:"] rootsC7 false fsC7 logC7 MoveOutcome.success).2.1
        ⟨["Z:", "Movies"], "Old.mp4"⟩ = true
    ∧ (moveConvertedFilesStep mediaC7 ["Z:"] rootsC7 false fsC7 logC7 MoveOutcome.success).2.1
        ≠ fsC7 := by
  decide

/-- **C7** (corrected).  The short-circuit exists only in
`robocopy.move_converted_file`, and it is keyed by the *staged converted
file's* path being present in the log with *any* status (status
`"Skipped (Moved)"`, nothing moved, log unchanged); in
`file_handler.move_converted_files` the log is never consulted, and a
repeat run is a no-op only because the staged converted file no longer
exists at its pre-transfer location. -/
theorem c7_transfer_amended :
    (∀ (media : MediaFile) (mt mtitle : Option String) (se ep : Option Int)
       (log : MoveLog) (fs : FS) (dryRun : Bool) (out : MoveOutcome) (src : FsPath),
       media.destination_path = some src →
       fsContains fs src = true →
       logHasKey log (pathStr src) = true →
       rcMoveConvertedFile media mt mtitle se ep log fs dryRun out
         = ({ media with status := "Skipped (Moved)" }, log, fs))
    ∧ (∀ (media : MediaFile) (destBase : List String) (roots : List (List String))
       (dryRun : Bool) (fs : FS) (log : MoveLog) (out : MoveOutcome) (conv : FsPath),
       media.destination_path = some conv →
       fsContains fs conv = false →
       moveConvertedFilesStep media destBase roots dryRun fs log out = (media, fs, log)) := by
  constructor
  · intro media mt mtitle se ep log fs dryRun out src hdest hfs hlog
    unfold rcMoveConvertedFile
    rw [hdest]
    simp only [hfs, Bool.not_true, Bool.false_eq_true, if_false, hlog, if_true]
  · intro media destBase roots dryRun fs log out conv hdest hfs
    unfold moveConvertedFilesStep
    rw [hdest]
    simp only [hfs, Bool.not_false, if_true]

/-- **C7** witness: the robocopy short-circuit and the file_handler
staged-file-absent skip at concrete states. -/
theorem c7_transfer_amended_witness :
    rcMoveConvertedFile
        { source_path := ⟨["E:", "Movies"], "N.mkv"⟩,
          destination_path := some ⟨["staging"], "N.mp4"⟩, status := "Converted" }
        (some "movie") (some "N") none none
        [("staging/N.mp4", "Transferred")] [⟨["staging"], "N.mp4"⟩] false MoveOutcome.success
      = ({ source_path := ⟨["E:", "Movies"], "N.mkv"⟩,
           destination_path := some ⟨["staging"], "N.mp4"⟩, status := "Skipped (Moved)" },
         [("staging/N.mp4", "Transferred")], [⟨["staging"], "N.mp4"⟩])
    ∧ moveConvertedFilesStep
        { source_path := ⟨["E:", "Movies"], "N.mkv"⟩,
          destination_path := some ⟨["staging"], "N.mp4"⟩, status := "Transferred" }
        ["Z:"] [["E:", "Movies"]] false [] [("E:/Movies/N.mkv", "Moved")] MoveOutcome.success
      = ({ source_path := ⟨["E:", "Movies"], "N.mkv"⟩,
           destination_path := some ⟨["staging"], "N.mp4"⟩, status := "Transferred" },
         [], [("E:/Movies/N.mkv", "Moved")]) :=
  ⟨c7_transfer_amended.1
      { source_path := ⟨["E:", "Movies"], "N.mkv"⟩,
        destination_path := some ⟨["staging"], "N.mp4"⟩, status := "Converted" }
      (some "movie") (some "N") none none
      [("staging/N.mp4", "Transferred")] [⟨["staging"], "N.mp4"⟩] false MoveOutcome.success
      ⟨["staging"], "N.mp4"⟩ rfl (by decide) (by decide),
   c7_transfer_amended.2
      { source_path := ⟨["E:", "Movies"], "N.mkv"⟩,
        destination_path := some ⟨["staging"], "N.mp4"⟩, status := "Transferred" }
      ["Z:"] [["E:", "Movies"]] false [] [("E:/Movies/N.mkv", "Moved")] MoveOutcome.success
      ⟨["staging"], "N.mp4"⟩ rfl (by decide)⟩

/-- **C1** counterexample.  `classify` does not implement the spec's
ordered decision: the video test is a *substring* test on the
lower-cased codec, so the codec `"shevchenko"` — outside {h264, hevc} —
slips through (it contains `"hevc"`), and `classify` answers `"remux"`
where the spec's decision answers `"convert"`. -/
theorem c1_counterexample :
    mediaC1.classify = "remux" ∧ specOrderedDecision mediaC1 = "convert" := by
  decide

/-- **C1** (corrected).  `classify` follows the ordered decision with
first match winning, *amended to the code's tests*: a present, non-empty
audio codec lower-casing outside {aac, ac3, eac3} forces `convert`; a
present, non-empty video codec whose lower-casing contains neither
`"h264"` nor `"hevc"` as a substring forces `convert`; a missing codec
never triggers a branch; otherwise `remux`.  The claim's two "in
particular" statements hold as stated: a non-null burn selection always
yields `convert`, and with no burn selection, audio codec in the
accepted set with ≥ 6 channels and video codec in the accepted set, the
answer is `remux`. -/
theorem c1_classify_amended (m : MediaFile) :
    m.classify = orderedDecisionAmended m
    ∧ (m.burned_subtitle.isSome = true → m.classify = "convert")
    ∧ (m.burned_subtitle = none → audioInAcceptedSet m = true →
       m.audio_channels ≥ 6 → videoInAcceptedSet m = true → m.classify = "remux") := by
  refine ⟨rfl, ?_, ?_⟩
  · intro h
    unfold MediaFile.classify
    simp only [h, if_true]
  · intro hb ha hch hv
    unfold MediaFile.classify
    rw [hb]
    unfold audioInAcceptedSet at ha
    unfold videoInAcceptedSet at hv
    cases hA : m.audio_codec with
    | none => rw [hA] at ha; exact absurd ha (by simp)
    | some a =>
        rw [hA] at ha
        simp only [] at ha
        cases hV : m.video_codec with
        | none => rw [hV] at hv; exact absurd hv (by simp)
        | some v =>
            rw [hV] at hv
            simp only [] at hv
            have hany : compatibleVideo.any (fun c => strContainsSub c (pyLower v)) = true := by
              have hmem : pyLower v ∈ compatibleVideo := by
                simpa [compatibleVideo] using hv
              exact List.any_eq_true.2 ⟨pyLower v, hmem, strContainsSub_refl _⟩
            have hamem : pyLower a ∈ compatibleAudio := by
              simpa [compatibleAudio] using ha
            simp [ha, hany, hamem]

/-- **C1** witness: both "in particular" branches at concrete records. -/
theorem c1_classify_amended_witness :
    mediaC1w.classify = "remux" ∧ mediaC1b.classify = "convert" :=
  ⟨(c1_classify_amended mediaC1w).2.2 rfl (by decide) (by decide) (by decide),
   (c1_classify_amended mediaC1b).2.1 (by decide)⟩

/-- **C9** counterexample.  An *absent* codec does not degrade to the
safe `convert` branch: with both codecs `None` (Python falsy) and no
burn selection, both checks are skipped and `classify` answers
`"remux"`, where the claim demands `"convert"` for an unknown or absent
codec. -/
theorem c9_counterexample :
    mediaC9.audio_codec = none ∧ mediaC9.video_codec = none
    ∧ mediaC9.classify = "remux" := by
  decide

/-- **C9** (corrected).  `classify` is total and degrades to `convert`
for every *present, non-empty* unexpected codec value: a present audio
codec lower-casing outside {aac, ac3, eac3}, or a present video codec
lower-casing containing neither `"h264"` nor `"hevc"`, yields
`"convert"`; an absent codec, by contrast, is treated as compatible and
the check is skipped. -/
theorem c9_unexpected_codec_amended (m : MediaFile)
    (h : (∃ a, m.audio_codec = some a ∧ a ≠ "" ∧
            compatibleAudio.contains (pyLower a) = false)
       ∨ (∃ v, m.video_codec = some v ∧ v ≠ "" ∧
            compatibleVideo.any (fun c => strContainsSub c (pyLower v)) = false)) :
    m.classify = "convert" := by
  unfold MediaFile.classify
  cases hbs : m.burned_subtitle.isSome with
  | true => simp [hbs]
  | false =>
    rcases h with ⟨a, hA, hne, hc⟩ | ⟨v, hV, hne, hc⟩
    · have hemp : a.isEmpty = false := by
        cases he : a.isEmpty with
        | true => exact absurd ((String.isEmpty_iff a).1 he) hne
        | false => rfl
      simp only [hbs, hA, hemp, hc, Bool.not_false, Bool.and_true, Bool.and_self,
                 Bool.false_eq_true, if_false, if_true]
    · have hemp : v.isEmpty = false := by
        cases he : v.isEmpty with
        | true => exact absurd ((String.isEmpty_iff v).1 he) hne
        | false => rfl
      cases hcond : (match m.audio_codec with
                     | some a => !a.isEmpty && !(compatibleAudio.contains (pyLower a))
                     | none => false) with
      | true => simp [hbs, hcond]
      | false =>
          simp only [hbs, hcond, hV, hemp, hc, Bool.not_false, Bool.and_self,
                     Bool.false_eq_true, if_false, if_true]

/-- **C9** witness: a present out-of-set audio codec at a concrete
record. -/
theorem c9_unexpected_codec_amended_witness : mediaC9w.classify = "convert" :=
  c9_unexpected_codec_amended mediaC9w (Or.inl ⟨"dts", rfl, by decide, by decide⟩)

theorem countP_burn_map_ignore (ts : List SubtitleTrack) :
    (ts.map (fun t => { t with action := "ignore" })).countP
      (fun t => t.action == "burn") = 0 := by
  induction ts with
  | nil => rfl
  | cons t tl ih => simp [List.countP_cons, ih]

theorem countP_set_le (p : α → Bool) :
    ∀ (l : List α) (i : Nat) (a : α),
      (l.set i a).countP p ≤ l.countP p + (if p a then 1 else 0) := by
  intro l
  induction l with
  | nil => intro i a; simp [List.countP_nil]
  | cons b tl ih =>
      intro i a
      cases i with
      | zero =>
          simp only [List.set_cons_zero, List.countP_cons]
          by_cases hb : p b = true <;> by_cases ha : p a = true <;>
            simp [hb, ha]
      | succ n =>
          simp only [List.set_cons_succ, List.countP_cons]
          have := ih n a
          by_cases hb : p b = true <;> simp [hb] <;> omega

theorem countP_set_le_of_false (p : α → Bool) (l : List α) (i : Nat) (a : α)
    (h : p a = false) : (l.set i a).countP p ≤ l.countP p := by
  have hle := countP_set_le p l i a
  rw [h] at hle
  simpa using hle

theorem countP_set_le_one (p : α → Bool) (l : List α) (i : Nat) (a : α) :
    (l.set i a).countP p ≤ l.countP p + 1 := by
  have hle := countP_set_le p l i a
  cases hpa : p a with
  | true => rw [hpa] at hle; simpa using hle
  | false =>
      rw [hpa] at hle
      simp only [Bool.false_eq_true, if_false, Nat.add_zero] at hle
      omega

theorem lt_length_of_get?_eq_some {l : List α} {i : Nat} {a : α}
    (h : l.get? i = some a) : i < l.length := by
  by_cases hlt : i < l.length
  · exact hlt
  · rw [List.get?_len_le (Nat.le_of_not_lt hlt)] at h
    cases h

theorem applyCopy_countP_zero (bi : Option Int) (acc : List SubtitleTrack) (q : Nat)
    (h : acc.countP (fun t => t.action == "burn") = 0) :
    (applyCopy bi acc q).countP (fun t => t.action == "burn") = 0 := by
  unfold applyCopy
  cases hq : acc.get? q with
  | none => exact h
  | some t =>
      have hset : (acc.set q { t with action := "copy" }).countP
          (fun t => t.action == "burn") = 0 := by
        have hle := countP_set_le_of_false (fun x => x.action == "burn") acc q
          { t with action := "copy" } (by rfl)
        omega
      cases bi with
      | none => exact hset
      | some b =>
          by_cases hb : (t.index == b) = true
          · simp only [hb, if_true]; exact h
          · simp only [hb, if_false]; exact hset

theorem foldl_applyCopy_countP_zero (bi : Option Int) :
    ∀ (checked : List Nat) (acc : List SubtitleTrack),
      acc.countP (fun t => t.action == "burn") = 0 →
      (checked.foldl (applyCopy bi) acc).countP (fun t => t.action == "burn") = 0 := by
  intro checked
  induction checked with
  | nil => intro acc h; exact h
  | cons q tl ih =>
      intro acc h
      exact ih _ (applyCopy_countP_zero bi acc q h)

theorem applyCopy_inv (bi : Int) (acc : List SubtitleTrack) (q p : Nat)
    (h1 : ∃ tb, acc.get? p = some tb ∧ tb.action = "burn" ∧ tb.index = bi)
    (h2 : acc.countP (fun t => t.action == "burn") ≤ 1) :
    (∃ tb, (applyCopy (some bi) acc q).get? p = some tb ∧ tb.action = "burn" ∧ tb.index = bi)
    ∧ (applyCopy (some bi) acc q).countP (fun t => t.action == "burn") ≤ 1 := by
  obtain ⟨tb, hget, hact, hidx⟩ := h1
  unfold applyCopy
  cases hq : acc.get? q with
  | none => exact ⟨⟨tb, hget, hact, hidx⟩, h2⟩
  | some t =>
      by_cases hb : (t.index == bi) = true
      · simp only [hb, if_true]
        exact ⟨⟨tb, hget, hact, hidx⟩, h2⟩
      · simp only [hb, Bool.false_eq_true, if_false]
        have hqp : q ≠ p := by
          intro he
          subst he
          rw [hget] at hq
          injection hq with hq'
          subst hq'
          exact hb (beq_iff_eq.2 hidx)
        refine ⟨⟨tb, ?_, hact, hidx⟩, ?_⟩
        · rw [List.get?_set_ne _ _ hqp]
          exact hget
        · have hle := countP_set_le_of_false (fun x => x.action == "burn") acc q
            { t with action := "copy" } (by rfl)
          omega

theorem foldl_applyCopy_inv (bi : Int) :
    ∀ (checked : List Nat) (acc : List SubtitleTrack) (p : Nat),
      (∃ tb, acc.get? p = some tb ∧ tb.action = "burn" ∧ tb.index = bi) →
      acc.countP (fun t => t.action == "burn") ≤ 1 →
      (∃ tb, (checked.foldl (applyCopy (some bi)) acc).get? p = some tb
         ∧ tb.action = "burn" ∧ tb.index = bi)
      ∧ (checked.foldl (applyCopy (some bi)) acc).countP (fun t => t.action == "burn") ≤ 1 := by
  intro checked
  induction checked with
  | nil => intro acc p h1 h2; exact ⟨h1, h2⟩
  | cons q tl ih =>
      intro acc p h1 h2
      obtain ⟨h1', h2'⟩ := applyCopy_inv bi acc q p h1 h2
      exact ih _ p h1' h2'

theorem burnInvariantB_some_eq (ts : List SubtitleTrack) (i : Nat) :
    burnInvariantB ts (some i)
      = ((match ts.get? i with
          | some t => t.action == "burn"
          | none => false)
         && decide (ts.countP (fun t => t.action == "burn") ≤ 1)) := rfl

theorem burnInvariantB_reset (ts : List SubtitleTrack) :
    burnInvariantB (ts.map (fun t => { t with action := "ignore" })) none = true := by
  unfold burnInvariantB
  rw [Bool.and_eq_true]
  exact ⟨rfl, decide_eq_true (by rw [countP_burn_map_ignore]; exact Nat.zero_le 1)⟩

theorem autoSelect_invariant (ts : List SubtitleTrack)
    (hc0 : ts.countP (fun t => t.action == "burn") = 0) :
    burnInvariantB (autoSelectFirstForced ts).1 (autoSelectFirstForced ts).2 = true := by
  induction ts with
  | nil => rfl
  | cons t tl ih =>
      rw [List.countP_cons] at hc0
      have ht : (t.action == "burn") = false := by
        cases h : (t.action == "burn") with
        | true => rw [h] at hc0; simp at hc0
        | false => rfl
      have htl : tl.countP (fun t => t.action == "burn") = 0 := by
        rw [ht] at hc0
        simpa using hc0
      unfold autoSelectFirstForced
      by_cases hf : (t.language == "eng" && t.is_forced) = true
      · simp only [hf, if_true]
        unfold burnInvariantB
        rw [Bool.and_eq_true]
        refine ⟨rfl, ?_⟩
        have hone : ({ t with action := "burn" } :: tl).countP
            (fun t => t.action == "burn") = 1 := by
          simp [List.countP_cons, htl]
        exact decide_eq_true (by rw [hone])
      · simp only [hf, Bool.false_eq_true, if_false]
        have ih' := ih htl
        unfold burnInvariantB at ih'
        rw [Bool.and_eq_true] at ih'
        obtain ⟨ih1, ih2⟩ := ih'
        unfold burnInvariantB
        rw [Bool.and_eq_true]
        constructor
        · cases hr : (autoSelectFirstForced tl).2 with
          | none => simp [hr]
          | some j =>
              rw [hr] at ih1
              simp only [hr, Option.map_some']
              rw [List.get?_cons_succ]
              exact ih1
        · have hcons : (t :: (autoSelectFirstForced tl).1).countP
              (fun t => t.action == "burn")
              = (autoSelectFirstForced tl).1.countP (fun t => t.action == "burn") := by
            rw [List.countP_cons, ht]
            simp
          exact decide_eq_true (by rw [hcons]; exact of_decide_eq_true ih2)

theorem uiSelectAndCopy_none (ts1 : List SubtitleTrack) (checked : List Nat) :
    uiSelectAndCopy ts1 none checked = (checked.foldl (applyCopy none) ts1, none) := rfl

theorem uiSelectAndCopy_some (ts1 : List SubtitleTrack) (i : Nat) (checked : List Nat) :
    uiSelectAndCopy ts1 (some i) checked
      = match ts1.get? i with
        | some t => (checked.foldl (applyCopy (some t.index))
                      (ts1.set i { t with action := "burn" }), some i)
        | none => (checked.foldl (applyCopy none) ts1, some i) := rfl

theorem uiSelect_invariant (ts1 : List SubtitleTrack) (sel : Option Nat) (checked : List Nat)
    (hc0 : ts1.countP (fun t => t.action == "burn") = 0)
    (hsel : ∀ i, sel = some i → i < ts1.length) :
    burnInvariantB (uiSelectAndCopy ts1 sel checked).1 (uiSelectAndCopy ts1 sel checked).2
      = true := by
  cases sel with
  | none =>
      rw [uiSelectAndCopy_none]
      have hz := foldl_applyCopy_countP_zero none checked ts1 hc0
      simp [burnInvariantB, hz]
  | some i =>
      rw [uiSelectAndCopy_some]
      have hlt : i < ts1.length := hsel i rfl
      cases hget : ts1.get? i with
      | none =>
          rw [List.get?_eq_get hlt] at hget
          cases hget
      | some t =>
          show burnInvariantB
              (checked.foldl (applyCopy (some t.index)) (ts1.set i { t with action := "burn" }))
              (some i) = true
          have hstart1 : ∃ tb, (ts1.set i { t with action := "burn" }).get? i = some tb
              ∧ tb.action = "burn" ∧ tb.index = t.index :=
            ⟨{ t with action := "burn" }, List.get?_set_eq_of_lt _ hlt, rfl, rfl⟩
          have hstart2 : (ts1.set i { t with action := "burn" }).countP
              (fun t => t.action == "burn") ≤ 1 := by
            have hle := countP_set_le_one (fun t => t.action == "burn") ts1 i
              { t with action := "burn" }
            omega
          obtain ⟨⟨tb, hgt, hact, _⟩, hcnt⟩ :=
            foldl_applyCopy_inv t.index checked _ i hstart1 hstart2
          rw [burnInvariantB_some_eq, hgt, Bool.and_eq_true]
          refine ⟨?_, decide_eq_true hcnt⟩
          show (tb.action == "burn") = true
          rw [hact]
          rfl

/-- **C8** (confirmed).  Every modelled operation that creates or
mutates the subtitle selection preserves the burn invariant
(`burnInvariantB`): the auto-selection of `subtitlesmkv.scan_file`
establishes it from freshly parsed tracks; the dashboard's
`update_media_file_from_ui` establishes it whenever the combo-box
selection refers to a track of the list (which the UI guarantees: the
combo is populated from `subtitle_tracks`); and
`basic_convert.run_basic_conversion` preserves it on every exit path
(its success branch clears the selection and resets every action). -/
theorem c8_burn_invariant :
    (∀ tracks : List SubtitleTrack,
       burnInvariantB (scanFileAutoSelect tracks).1 (scanFileAutoSelect tracks).2 = true)
    ∧ (∀ (ts : List SubtitleTrack) (sel : Option Nat) (checked : List Nat),
       (∀ i, sel = some i → i < ts.length) →
       burnInvariantB (updateMediaFileFromUI ts sel checked).1
         (updateMediaFileFromUI ts sel checked).2 = true)
    ∧ (∀ (m : MediaFile) (s : ConversionSettings) (fs : FS) (out : ExecOutcome),
       burnInvariantB m.subtitle_tracks m.burned_subtitle = true →
       burnInvariantB (runBasicConversion m s fs out).1.subtitle_tracks
         (runBasicConversion m s fs out).1.burned_subtitle = true) := by
  refine ⟨?_, ?_, ?_⟩
  · intro tracks
    exact autoSelect_invariant _ (countP_burn_map_ignore tracks)
  · intro ts sel checked hsel
    refine uiSelect_invariant _ sel checked (countP_burn_map_ignore ts) ?_
    intro i hi
    simpa using hsel i hi
  · intro m s fs out h
    unfold runBasicConversion
    by_cases hd : s.dry_run
    · simp only [hd, if_true]
      exact h
    · simp only [hd, if_false]
      cases out with
      | encodeFail w => exact h
      | renameFail => exact h
      | success =>
          exact burnInvariantB_reset m.subtitle_tracks

/-- **C8** witness: the UI update applied at a concrete selection that
lies inside the track list. -/
theorem c8_burn_invariant_witness :
    burnInvariantB
      (updateMediaFileFromUI
        [{ index := 2, language := "eng", is_forced := true },
         { index := 3, language := "eng", is_text_based := true }]
        (some 0) [1]).1
      (updateMediaFileFromUI
        [{ index := 2, language := "eng", is_forced := true },
         { index := 3, language := "eng", is_text_based := true }]
        (some 0) [1]).2 = true :=
  c8_burn_invariant.2.1
    [{ index := 2, language := "eng", is_forced := true },
     { index := 3, language := "eng", is_text_based := true }]
    (some 0) [1]
    (by intro i hi; injection hi with hi'; subst hi'; decide)

end MediaConv
